import Mathlib

/-!
Shallow embedding of the QnA matching core of the JARVIS repository.

Sources embedded:
  * `src/main.py`, class `QnAModel` (`_load_and_train`, `_preprocess_text`,
    `get_answer`) together with the library calls it makes
    (`nltk.word_tokenize`, `nltk.corpus.stopwords`, `nltk.stem.PorterStemmer`,
    `sklearn TfidfVectorizer` with default parameters, and
    `sklearn cosine_similarity` / `numpy argmax`).
  * `src/Traning_Model/model.py` (`load_dataset`, `preprocess_text`,
    `train_tfidf_vectorizer`, `get_answer`, `mind`).

Machine floating point is idealised as `ℝ`; Python exceptions are modelled by
`Except`; a file is modelled as `Option (List String)` (its list of lines,
`none` when the path is missing or unreadable).
-/

namespace JarvisQnA

/-! ## Python string primitives -/

/-- Model of Python `str.strip()` (drop leading and trailing whitespace). -/
def pyStrip (s : String) : String :=
  String.mk (((s.toList.dropWhile Char.isWhitespace).reverse.dropWhile
      Char.isWhitespace).reverse)

/-- Model of Python `str.split(sep, 1)[0] / [1]` for `sep = ":"` on a string
that contains a colon: the text before the first colon and the text after it
(which may itself contain colons). -/
def splitFirstColon (s : String) : String × String :=
  (String.mk (s.toList.takeWhile (fun c => c ≠ ':')),
   String.mk ((s.toList.dropWhile (fun c => c ≠ ':')).drop 1))

/-- Model of Python `str.isalnum()` on a token (ASCII fidelity). -/
def isAlnumTok (t : String) : Bool :=
  !t.toList.isEmpty && t.toList.all Char.isAlphanum

/-- Model of Python `str.lower()` (ASCII fidelity). -/
def pyLower (s : String) : String := String.mk (s.toList.map Char.toLower)

/-- Model of Python `":".join`-style joining with single spaces, i.e.
`" ".join(tokens)`. -/
def joinSpace : List String → String
  | [] => ""
  | [t] => t
  | t :: ts => t ++ " " ++ joinSpace ts

/-- Model of Python `str.split(':')` (split on every colon). -/
def splitColonAux : List Char → List Char → List String
  | [], cur => [String.mk cur.reverse]
  | c :: cs, cur =>
    if c = ':' then String.mk cur.reverse :: splitColonAux cs []
    else splitColonAux cs (c :: cur)

def splitAllColon (s : String) : List String := splitColonAux s.toList []

/-! ## Tokenizers

`wordTokenize` models `nltk.word_tokenize` at the fidelity the spec
describes it ("splits into word tokens using locale-aware word boundaries;
punctuation and whitespace are separators"): maximal alphanumeric runs are
word tokens and every other non-whitespace character is its own token.

`sklearnTokenize` models the default analyzer of sklearn's
`TfidfVectorizer`: lower-casing followed by the token pattern `\w\w+`
(maximal word-character runs of length at least two). -/

def wordTokAux : List Char → List Char → List String
  | [], cur => if cur.isEmpty then [] else [String.mk cur.reverse]
  | c :: cs, cur =>
    if c.isAlphanum then wordTokAux cs (c :: cur)
    else
      (if cur.isEmpty then [] else [String.mk cur.reverse]) ++
      (if c.isWhitespace then [] else [String.mk [c]]) ++
      wordTokAux cs []

def wordTokenize (s : String) : List String := wordTokAux s.toList []

def isWordChar (c : Char) : Bool := c.isAlphanum || c = '_'

def sklearnTokAux : List Char → List Char → List String
  | [], cur => if 2 ≤ cur.length then [String.mk cur.reverse] else []
  | c :: cs, cur =>
    if isWordChar c then sklearnTokAux cs (c :: cur)
    else
      (if 2 ≤ cur.length then [String.mk cur.reverse] else []) ++
      sklearnTokAux cs []

def sklearnTokenize (s : String) : List String :=
  sklearnTokAux (pyLower s).toList []

/-! ## Stop words

The English stop-word list of `nltk.corpus.stopwords.words('english')`. -/

def stopWordsEN : List String :=
  ["i", "me", "my", "myself", "we", "our", "ours", "ourselves", "you",
   "you're", "you've", "you'll", "you'd", "your", "yours", "yourself",
   "yourselves", "he", "him", "his", "himself", "she", "she's", "her",
   "hers", "herself", "it", "it's", "its", "itself", "they", "them",
   "their", "theirs", "themselves", "what", "which", "who", "whom",
   "this", "that", "that'll", "these", "those", "am", "is", "are",
   "was", "were", "be", "been", "being", "have", "has", "had", "having",
   "do", "does", "did", "doing", "a", "an", "the", "and", "but", "if",
   "or", "because", "as", "until", "while", "of", "at", "by", "for",
   "with", "about", "against", "between", "into", "through", "during",
   "before", "after", "above", "below", "to", "from", "up", "down",
   "in", "out", "on", "off", "over", "under", "again", "further",
   "then", "once", "here", "there", "when", "where", "why", "how",
   "all", "any", "both", "each", "few", "more", "most", "other",
   "some", "such", "no", "nor", "not", "only", "own", "same", "so",
   "than", "too", "very", "s", "t", "can", "will", "just", "don",
   "don't", "should", "should've", "now", "d", "ll", "m", "o", "re",
   "ve", "y", "ain", "aren", "aren't", "couldn", "couldn't", "didn",
   "didn't", "doesn", "doesn't", "hadn", "hadn't", "hasn", "hasn't",
   "haven", "haven't", "isn", "isn't", "ma", "mightn", "mightn't",
   "mustn", "mustn't", "needn", "needn't", "shan", "shan't", "shouldn",
   "shouldn't", "wasn", "wasn't", "weren", "weren't", "won", "won't",
   "wouldn", "wouldn't"]

/-! ## Porter stemmer

Model of `nltk.stem.PorterStemmer().stem` by the standard Porter (1980)
suffix-stripping algorithm.  Letters other than a,e,i,o,u are consonants;
`y` is a consonant exactly when it starts the word or follows a vowel. -/

def isBasicVowel (c : Char) : Bool :=
  c = 'a' || c = 'e' || c = 'i' || c = 'o' || c = 'u'

def consFlagsAux : Option Bool → List Char → List Bool
  | _, [] => []
  | prev, c :: cs =>
    let b :=
      if isBasicVowel c then false
      else if c = 'y' then (match prev with | none => true | some p => !p)
      else true
    b :: consFlagsAux (some b) cs

/-- For each letter of the word, `true` when it is a consonant in Porter's
sense. -/
def consFlags (w : List Char) : List Bool := consFlagsAux none w

def countVC : List Bool → Nat
  | [] => 0
  | [_] => 0
  | a :: b :: rest => (if !a && b then 1 else 0) + countVC (b :: rest)

/-- Porter's measure `m`: the number of vowel-consonant sequences. -/
def pm (w : List Char) : Nat := countVC (consFlags w)

def hasVowel (w : List Char) : Bool := (consFlags w).contains false

def endsDoubleC (w : List Char) : Bool :=
  match w.reverse with
  | c1 :: c2 :: _ => c1 = c2 && ((consFlags w).getLast?.getD false)
  | _ => false

def endsCVC (w : List Char) : Bool :=
  match w.reverse, (consFlags w).reverse with
  | c1 :: _ :: _ :: _, f1 :: f2 :: f3 :: _ =>
    f1 && !f2 && f3 && !(c1 = 'w' || c1 = 'x' || c1 = 'y')
  | _, _ => false

def pEndsWith (w suf : List Char) : Bool := suf.isSuffixOf w

def chop (w : List Char) (n : Nat) : List Char := w.take (w.length - n)

def stemPart (w suf : List Char) : List Char := chop w suf.length

/-- A Porter rewrite rule: a suffix, its replacement, and a condition on the
remaining stem. -/
structure PRule where
  suf : List Char
  rep : List Char
  cond : List Char → Bool

/-- Apply the first rule whose suffix matches; the step ends there whether or
not the rule's condition lets it fire. -/
def applyRules (w : List Char) : List PRule → List Char
  | [] => w
  | r :: rs =>
    if pEndsWith w r.suf then
      (if r.cond (stemPart w r.suf) then stemPart w r.suf ++ r.rep else w)
    else applyRules w rs

def condTrue : List Char → Bool := fun _ => true

def condMPos : List Char → Bool := fun st => 0 < pm st

def condMGt1 : List Char → Bool := fun st => 1 < pm st

def step1a (w : List Char) : List Char :=
  applyRules w
    [⟨['s','s','e','s'], ['s','s'], condTrue⟩,
     ⟨['i','e','s'], ['i'], condTrue⟩,
     ⟨['s','s'], ['s','s'], condTrue⟩,
     ⟨['s'], [], condTrue⟩]

def step1bCleanup (w : List Char) : List Char :=
  if pEndsWith w ['a','t'] || pEndsWith w ['b','l'] || pEndsWith w ['i','z'] then
    w ++ ['e']
  else if endsDoubleC w &&
      !(pEndsWith w ['l'] || pEndsWith w ['s'] || pEndsWith w ['z']) then
    chop w 1
  else if pm w = 1 && endsCVC w then w ++ ['e']
  else w

def step1b (w : List Char) : List Char :=
  if pEndsWith w ['e','e','d'] then
    (if 0 < pm (stemPart w ['e','e','d']) then chop w 1 else w)
  else if pEndsWith w ['e','d'] then
    (if hasVowel (stemPart w ['e','d']) then step1bCleanup (stemPart w ['e','d'])
     else w)
  else if pEndsWith w ['i','n','g'] then
    (if hasVowel (stemPart w ['i','n','g']) then
      step1bCleanup (stemPart w ['i','n','g'])
     else w)
  else w

def step1c (w : List Char) : List Char :=
  if pEndsWith w ['y'] && hasVowel (stemPart w ['y']) then
    stemPart w ['y'] ++ ['i']
  else w

def step2 (w : List Char) : List Char :=
  applyRules w
    [⟨['a','t','i','o','n','a','l'], ['a','t','e'], condMPos⟩,
     ⟨['t','i','o','n','a','l'], ['t','i','o','n'], condMPos⟩,
     ⟨['e','n','c','i'], ['e','n','c','e'], condMPos⟩,
     ⟨['a','n','c','i'], ['a','n','c','e'], condMPos⟩,
     ⟨['i','z','e','r'], ['i','z','e'], condMPos⟩,
     ⟨['a','b','l','i'], ['a','b','l','e'], condMPos⟩,
     ⟨['a','l','l','i'], ['a','l'], condMPos⟩,
     ⟨['e','n','t','l','i'], ['e','n','t'], condMPos⟩,
     ⟨['e','l','i'], ['e'], condMPos⟩,
     ⟨['o','u','s','l','i'], ['o','u','s'], condMPos⟩,
     ⟨['i','z','a','t','i','o','n'], ['i','z','e'], condMPos⟩,
     ⟨['a','t','i','o','n'], ['a','t','e'], condMPos⟩,
     ⟨['a','t','o','r'], ['a','t','e'], condMPos⟩,
     ⟨['a','l','i','s','m'], ['a','l'], condMPos⟩,
     ⟨['i','v','e','n','e','s','s'], ['i','v','e'], condMPos⟩,
     ⟨['f','u','l','n','e','s','s'], ['f','u','l'], condMPos⟩,
     ⟨['o','u','s','n','e','s','s'], ['o','u','s'], condMPos⟩,
     ⟨['a','l','i','t','i'], ['a','l'], condMPos⟩,
     ⟨['i','v','i','t','i'], ['i','v','e'], condMPos⟩,
     ⟨['b','i','l','i','t','i'], ['b','l','e'], condMPos⟩]

def step3 (w : List Char) : List Char :=
  applyRules w
    [⟨['i','c','a','t','e'], ['i','c'], condMPos⟩,
     ⟨['a','t','i','v','e'], [], condMPos⟩,
     ⟨['a','l','i','z','e'], ['a','l'], condMPos⟩,
     ⟨['i','c','i','t','i'], ['i','c'], condMPos⟩,
     ⟨['i','c','a','l'], ['i','c'], condMPos⟩,
     ⟨['f','u','l'], [], condMPos⟩,
     ⟨['n','e','s','s'], [], condMPos⟩]

def condIon : List Char → Bool := fun st =>
  1 < pm st && (pEndsWith st ['s'] || pEndsWith st ['t'])

def step4 (w : List Char) : List Char :=
  applyRules w
    [⟨['a','l'], [], condMGt1⟩,
     ⟨['a','n','c','e'], [], condMGt1⟩,
     ⟨['e','n','c','e'], [], condMGt1⟩,
     ⟨['e','r'], [], condMGt1⟩,
     ⟨['i','c'], [], condMGt1⟩,
     ⟨['a','b','l','e'], [], condMGt1⟩,
     ⟨['i','b','l','e'], [], condMGt1⟩,
     ⟨['a','n','t'], [], condMGt1⟩,
     ⟨['e','m','e','n','t'], [], condMGt1⟩,
     ⟨['m','e','n','t'], [], condMGt1⟩,
     ⟨['e','n','t'], [], condMGt1⟩,
     ⟨['i','o','n'], [], condIon⟩,
     ⟨['o','u'], [], condMGt1⟩,
     ⟨['i','s','m'], [], condMGt1⟩,
     ⟨['a','t','e'], [], condMGt1⟩,
     ⟨['i','t','i'], [], condMGt1⟩,
     ⟨['o','u','s'], [], condMGt1⟩,
     ⟨['i','v','e'], [], condMGt1⟩,
     ⟨['i','z','e'], [], condMGt1⟩]

def step5a (w : List Char) : List Char :=
  if pEndsWith w ['e'] then
    (if 1 < pm (stemPart w ['e']) then stemPart w ['e']
     else if pm (stemPart w ['e']) = 1 && !endsCVC (stemPart w ['e']) then
       stemPart w ['e']
     else w)
  else w

def step5b (w : List Char) : List Char :=
  if 1 < pm w && endsDoubleC w && pEndsWith w ['l'] then chop w 1 else w

/-- Porter stem of a token; words of length at most two are unchanged. -/
def porterStem (t : String) : String :=
  if t.toList.length ≤ 2 then t
  else
    String.mk
      (step5b (step5a (step4 (step3 (step2 (step1c (step1b (step1a t.toList))))))))

/-! ## Normalization

`QnAModel._preprocess_text` of `src/main.py` (identical to `preprocess_text`
of `src/Traning_Model/model.py`): lower-case, `word_tokenize`, keep only
purely alphanumeric non-stop-word tokens, Porter-stem each survivor, and join
the stems with single spaces. -/

def normalizeTokens (text : String) : List String :=
  ((wordTokenize (pyLower text)).filter
    (fun t => isAlnumTok t && !stopWordsEN.contains t)).map porterStem

def preprocessText (text : String) : String :=
  joinSpace (normalizeTokens text)

/-! ## TF-IDF vectorizer

Model of sklearn's `TfidfVectorizer` with its default parameters
(`norm='l2'`, `use_idf=True`, `smooth_idf=True`, `sublinear_tf=False`) as
called by `QnAModel._load_and_train` / `train_tfidf_vectorizer`:
the vocabulary is the sorted set of analyzer tokens of all documents,
`idf(t) = log((1 + N) / (1 + df(t))) + 1`, each row is the term-count
vector scaled by idf and then L2-normalized, and fitting an empty
vocabulary raises (`ValueError: empty vocabulary`).  sklearn's `normalize`
leaves an all-zero row unchanged, which coincides with division by a zero
norm under Lean's `x / 0 = 0` convention. -/

def dot : List ℝ → List ℝ → ℝ
  | [], _ => 0
  | _, [] => 0
  | x :: xs, y :: ys => x * y + dot xs ys

noncomputable def l2normalize (v : List ℝ) : List ℝ :=
  v.map (fun x => x / Real.sqrt (dot v v))

/-- Lexicographic comparison of strings by code point, as Python sorts
feature names. -/
def charListLt : List Char → List Char → Bool
  | [], [] => false
  | [], _ :: _ => true
  | _ :: _, [] => false
  | c :: cs, d :: ds =>
    if c.toNat < d.toNat then true
    else if d.toNat < c.toNat then false
    else charListLt cs ds

def strLt (a b : String) : Bool := charListLt a.toList b.toList

/-- Insert a term into a sorted duplicate-free list of terms. -/
def insertSorted (x : String) : List String → List String
  | [] => [x]
  | y :: ys =>
    if x = y then y :: ys
    else if strLt x y then x :: y :: ys
    else y :: insertSorted x ys

/-- The fitted vocabulary: sorted set of analyzer tokens of all documents. -/
def vocabOf (docs : List String) : List String :=
  ((docs.map sklearnTokenize).flatten).foldl (fun acc t => insertSorted t acc) []

/-- Document frequency of a term. -/
def dfCount (docs : List String) (t : String) : Nat :=
  (docs.filter (fun d => (sklearnTokenize d).contains t)).length

/-- The smoothed idf vector over the vocabulary. -/
noncomputable def idfOf (docs : List String) : List ℝ :=
  (vocabOf docs).map (fun t =>
    Real.log ((1 + (docs.length : ℝ)) / (1 + (dfCount docs t : ℝ))) + 1)

/-- Raw (un-normalized) tf-idf vector of a token list over a fixed
vocabulary and idf vector; terms outside the vocabulary contribute
nothing. -/
def rawRow (vocab : List String) (idf : List ℝ) (toks : List String) : List ℝ :=
  List.zipWith (fun t w => (toks.count t : ℝ) * w) vocab idf

/-- The fitted state of a `TfidfVectorizer`. -/
structure Fit where
  vocab : List String
  idf : List ℝ

noncomputable def rawOf (docs : List String) (d : String) : List ℝ :=
  rawRow (vocabOf docs) (idfOf docs) (sklearnTokenize d)

/-- The document matrix `X` produced by `fit_transform`. -/
noncomputable def matrixOf (docs : List String) : List (List ℝ) :=
  docs.map (fun d => l2normalize (rawOf docs d))

noncomputable def fitOf (docs : List String) : Fit :=
  ⟨vocabOf docs, idfOf docs⟩

/-- Model of `TfidfVectorizer().fit_transform(docs)`: raises (`.error`) on an
empty vocabulary, otherwise yields the fitted vectorizer and the row-wise
L2-normalized tf-idf matrix. -/
noncomputable def fitTransform (docs : List String) :
    Except String (Fit × List (List ℝ)) :=
  if vocabOf docs = [] then Except.error "empty vocabulary"
  else Except.ok (fitOf docs, matrixOf docs)

/-- Model of `vectorizer.transform([text])` on a fitted vectorizer: project
into the fixed vocabulary with the fitted idf weights and L2-normalize. -/
noncomputable def transform (fit : Fit) (text : String) : List ℝ :=
  l2normalize (rawRow fit.vocab fit.idf (sklearnTokenize text))

/-- Model of `sklearn cosine_similarity(qv, X)` (one query row): dot products
of the re-normalized query row with each re-normalized document row. -/
noncomputable def cosineSimilarity (u : List ℝ) (M : List (List ℝ)) : List ℝ :=
  M.map (fun r => dot (l2normalize u) (l2normalize r))

/-! ## numpy argmax -/

/-- Scanning loop of `numpy.argmax`: keep the current best index, replacing
it only on a strictly greater value, so the first occurrence of the maximum
wins. -/
def argmaxAux {α : Type} [LinearOrder α] : List α → Nat → Nat → α → Nat
  | [], _, bi, _ => bi
  | x :: xs, i, bi, bv =>
    if bv < x then argmaxAux xs (i + 1) i x else argmaxAux xs (i + 1) bi bv

/-- Model of `numpy.argmax` on a flat non-empty array (and `0` on `[]`, where
numpy would raise; callers guard that case explicitly). -/
def argmax {α : Type} [LinearOrder α] : List α → Nat
  | [] => 0
  | x :: xs => argmaxAux xs 1 0 x

/-! ## The QnA corpus and `QnAModel` of `src/main.py` -/

/-- One `question:answer` pair of the corpus. -/
structure Entry where
  question : String
  answer : String
deriving DecidableEq

/-- Parsing loop of `QnAModel._load_and_train`: strip every line, drop blank
lines, keep lines containing a colon, split each at its first colon and trim
both fields. -/
def parsePairs (raw : List String) : List Entry :=
  ((raw.map pyStrip).filter (fun l => l ≠ "")).filterMap (fun line =>
    if line.toList.contains ':' then
      some ⟨pyStrip (splitFirstColon line).1, pyStrip (splitFirstColon line).2⟩
    else none)

/-- The mutable state of a `QnAModel`: `dataset`, `vectorizer` (where
`some none` is a freshly constructed, still unfitted `TfidfVectorizer`) and
the document matrix `X`. -/
structure ModelState where
  dataset : List Entry
  vectorizer : Option (Option Fit)
  X : Option (List (List ℝ))

/-- State after `__init__` before `_load_and_train`. -/
def initState : ModelState := ⟨[], none, none⟩

/-- Tail of `_load_and_train` once parsing produced a non-empty pair list:
`self.dataset` and a fresh `self.vectorizer` are assigned first, so when
`fit_transform` raises (empty vocabulary) the exception is caught with the
new dataset and an unfitted vectorizer in place and `X` unchanged. -/
noncomputable def trainOn (s : ModelState) (pairs : List Entry) : ModelState :=
  match fitTransform (pairs.map (fun e => preprocessText e.question)) with
  | Except.error _ => ⟨pairs, some none, s.X⟩
  | Except.ok (fit, M) => ⟨pairs, some (some fit), some M⟩

/-- Model of `QnAModel._load_and_train`.  The file is `none` when
`os.path.isfile` fails or the file is unreadable; in both cases the method
logs and returns with the state unchanged.  An empty parse result also
returns early with the state unchanged. -/
noncomputable def loadAndTrain (s : ModelState) (file : Option (List String)) :
    ModelState :=
  match file with
  | none => s
  | some raw =>
    if parsePairs raw = [] then s else trainOn s (parsePairs raw)

/-- Body of `QnAModel.get_answer` over the three state fields.
`Except.error ()` marks the states in which the Python code would raise
(transform on an unfitted vectorizer, `argmax` of an empty similarity array,
dataset index out of range); every normal return is `Except.ok`. -/
noncomputable def getAnswerCore (dataset : List Entry)
    (vectorizer : Option (Option Fit)) (X : Option (List (List ℝ)))
    (q : String) : Except Unit (Option String) :=
  match vectorizer, X with
  | some ov, some M =>
    if dataset = [] then Except.ok none
    else
      match ov with
      | none => Except.error ()
      | some fit =>
        match cosineSimilarity (transform fit (preprocessText q)) M with
        | [] => Except.error ()
        | sim0 :: simRest =>
          if (sim0 :: simRest).getD (argmax (sim0 :: simRest)) 0 < (0.15 : ℝ) then
            Except.ok none
          else
            match dataset[argmax (sim0 :: simRest)]? with
            | some e => Except.ok (some e.answer)
            | none => Except.error ()
  | _, _ => Except.ok none

/-- Model of `QnAModel.get_answer`. -/
noncomputable def getAnswer (s : ModelState) (q : String) :
    Except Unit (Option String) :=
  getAnswerCore s.dataset s.vectorizer s.X q

/-! ## The older pipeline of `src/Traning_Model/model.py` -/

/-- Model of `load_dataset`: raises on an unreadable file; keeps lines
containing a colon, strips each and splits on EVERY colon, then unpacks each
piece list as exactly two fields — a line with more than one colon makes the
unpacking raise `ValueError`. -/
def modelLoadDataset (file : Option (List String)) :
    Except String (List Entry) :=
  match file with
  | none => Except.error "unreadable"
  | some lines =>
    match ((lines.filter (fun l => l.toList.contains ':')).map
        (fun l => splitAllColon (pyStrip l))).mapM (fun p =>
          match p with
          | [q, a] => some (Entry.mk q a)
          | _ => none) with
    | some ds => Except.ok ds
    | none => Except.error "ValueError"

/-- Model of `train_tfidf_vectorizer`: no exception handling around
`fit_transform`. -/
noncomputable def modelTrain (dataset : List Entry) :
    Except String (Fit × List (List ℝ)) :=
  fitTransform (dataset.map (fun e => preprocessText e.question))

/-- Model of `model.py`'s `get_answer`: no built/empty guard and no
confidence threshold — the answer at the argmax index is returned
unconditionally. -/
noncomputable def modelGetAnswer (question : String) (fit : Fit)
    (M : List (List ℝ)) (dataset : List Entry) : Except String String :=
  match cosineSimilarity (transform fit (preprocessText question)) M with
  | [] => Except.error "argmax of an empty sequence"
  | sim0 :: simRest =>
    match dataset[argmax (sim0 :: simRest)]? with
    | some e => Except.ok e.answer
    | none => Except.error "list index out of range"

/-- Model of `mind` up to the final `speak`: load, train and answer, with
every exception propagating to the caller. -/
noncomputable def mindAnswer (file : Option (List String)) (text : String) :
    Except String String :=
  match modelLoadDataset file with
  | Except.error e => Except.error e
  | Except.ok ds =>
    match modelTrain ds with
    | Except.error e => Except.error e
    | Except.ok (fit, M) => modelGetAnswer text fit M ds

/-! ## Concrete instances used to discharge hypotheses -/

/-- The corpus of preprocessed questions handed to the vectorizer by
`_load_and_train`. -/
def docsOf (pairs : List Entry) : List String :=
  pairs.map (fun e => preprocessText e.question)

/-- A two-entry corpus with disjoint single-term questions. -/
def pairsW : List Entry := [⟨"hi", "A"⟩, ⟨"yo", "B"⟩]

/-- A small fitted vectorizer used to instantiate hypotheses concretely. -/
noncomputable def fitW : Fit := ⟨["hi"], [1]⟩

/-- A one-document fitted model state; it is exactly what
`_load_and_train` produces from the file line `hi:hello`. -/
noncomputable def stateW : ModelState :=
  ⟨[⟨"hi", "hello"⟩], some (some fitW), some [[1]]⟩

/-! ## Helper lemmas: argmax -/

theorem argmaxAux_spec {α : Type} [LinearOrder α] (l : List α) :
    ∀ (i bi : Nat) (bv : α),
      (argmaxAux l i bi bv = bi ∧ ∀ k (hk : k < l.length), l.get ⟨k, hk⟩ ≤ bv) ∨
      (∃ k, ∃ hk : k < l.length,
        argmaxAux l i bi bv = i + k ∧ bv < l.get ⟨k, hk⟩ ∧
        (∀ j (hj : j < l.length), l.get ⟨j, hj⟩ ≤ l.get ⟨k, hk⟩) ∧
        (∀ j (hj : j < k), l.get ⟨j, Nat.lt_trans hj hk⟩ < l.get ⟨k, hk⟩)) := by
  induction l with
  | nil =>
    intro i bi bv
    left
    exact ⟨rfl, fun k hk => absurd hk (Nat.not_lt_zero k)⟩
  | cons x xs ih =>
    intro i bi bv
    by_cases hx : bv < x
    · rw [show argmaxAux (x :: xs) i bi bv = argmaxAux xs (i + 1) i x by
        simp [argmaxAux, hx]]
      rcases ih (i + 1) i x with ⟨heq, hle⟩ | ⟨k, hk, heq, hgt, hmax, hfirst⟩
      · right
        refine ⟨0, Nat.succ_pos _, by simpa using heq, by simpa using hx, ?_, ?_⟩
        · intro j hj
          cases j with
          | zero => simp
          | succ j => simpa using hle j (Nat.lt_of_succ_lt_succ hj)
        · intro j hj; exact absurd hj (Nat.not_lt_zero j)
      · right
        refine ⟨k + 1, Nat.succ_lt_succ hk, ?_, ?_, ?_, ?_⟩
        · rw [heq]; omega
        · simpa using lt_trans hx hgt
        · intro j hj
          cases j with
          | zero => simpa using le_of_lt hgt
          | succ j => simpa using hmax j (Nat.lt_of_succ_lt_succ hj)
        · intro j hj
          cases j with
          | zero => simpa using hgt
          | succ j => simpa using hfirst j (Nat.lt_of_succ_lt_succ hj)
    · rw [show argmaxAux (x :: xs) i bi bv = argmaxAux xs (i + 1) bi bv by
        simp [argmaxAux, hx]]
      rcases ih (i + 1) bi bv with ⟨heq, hle⟩ | ⟨k, hk, heq, hgt, hmax, hfirst⟩
      · left
        refine ⟨heq, ?_⟩
        intro j hj
        cases j with
        | zero => simpa using le_of_not_lt hx
        | succ j => simpa using hle j (Nat.lt_of_succ_lt_succ hj)
      · right
        refine ⟨k + 1, Nat.succ_lt_succ hk, ?_, ?_, ?_, ?_⟩
        · rw [heq]; omega
        · simpa using hgt
        · intro j hj
          cases j with
          | zero =>
            simpa using le_of_lt (lt_of_le_of_lt (le_of_not_lt hx) hgt)
          | succ j => simpa using hmax j (Nat.lt_of_succ_lt_succ hj)
        · intro j hj
          cases j with
          | zero => simpa using lt_of_le_of_lt (le_of_not_lt hx) hgt
          | succ j => simpa using hfirst j (Nat.lt_of_succ_lt_succ hj)

/-- `argmax` of a non-empty list is in range, attains the maximum and is the
least index doing so. -/
theorem argmax_spec {α : Type} [LinearOrder α] (x : α) (xs : List α) :
    ∃ hb : argmax (x :: xs) < (x :: xs).length,
      (∀ j (hj : j < (x :: xs).length),
        (x :: xs).get ⟨j, hj⟩ ≤ (x :: xs).get ⟨argmax (x :: xs), hb⟩) ∧
      (∀ j (hj : j < argmax (x :: xs)),
        (x :: xs).get ⟨j, Nat.lt_trans hj hb⟩ <
          (x :: xs).get ⟨argmax (x :: xs), hb⟩) := by
  rw [show argmax (x :: xs) = argmaxAux xs 1 0 x from rfl]
  rcases argmaxAux_spec xs 1 0 x with ⟨heq, hle⟩ | ⟨k, hk, heq, hgt, hmax, hfirst⟩
  · rw [heq]
    refine ⟨Nat.succ_pos _, ?_, ?_⟩
    · intro j hj
      cases j with
      | zero => simp
      | succ j => simpa using hle j (Nat.lt_of_succ_lt_succ hj)
    · intro j hj; exact absurd hj (Nat.not_lt_zero j)
  · rw [show argmaxAux xs 1 0 x = k + 1 by rw [heq]; omega]
    refine ⟨by simp only [List.length_cons]; omega, ?_, ?_⟩
    · intro j hj
      cases j with
      | zero => simpa using le_of_lt hgt
      | succ j => simpa using hmax j (Nat.lt_of_succ_lt_succ hj)
    · intro j hj
      cases j with
      | zero => simpa using hgt
      | succ j =>
        have hj' : j < k := by omega
        simpa using hfirst j hj'

/-! ## Helper lemmas: dot products and L2 normalization -/

theorem dot_nil_right (u : List ℝ) : dot u [] = 0 := by
  cases u <;> rfl

theorem dot_self_nonneg (v : List ℝ) : 0 ≤ dot v v := by
  induction v with
  | nil => simp [dot]
  | cons x xs ih => simpa [dot] using add_nonneg (mul_self_nonneg x) ih

theorem dot_self_pos (v : List ℝ) (h : ∃ x ∈ v, x ≠ 0) : 0 < dot v v := by
  induction v with
  | nil => simp at h
  | cons x xs ih =>
    simp only [dot]
    rcases h with ⟨y, hy, hy0⟩
    rcases List.mem_cons.mp hy with rfl | hmem
    · exact add_pos_of_pos_of_nonneg (mul_self_pos.mpr hy0) (dot_self_nonneg xs)
    · exact add_pos_of_nonneg_of_pos (mul_self_nonneg x) (ih ⟨y, hmem, hy0⟩)

theorem dot_zero_left (u v : List ℝ) (h : ∀ x ∈ u, x = 0) : dot u v = 0 := by
  induction u generalizing v with
  | nil => simp [dot]
  | cons x xs ih =>
    cases v with
    | nil => simp [dot]
    | cons y ys =>
      have hx : x = 0 := h x (List.mem_cons_self x xs)
      have := ih ys (fun z hz => h z (List.mem_cons_of_mem x hz))
      simp [dot, hx, this]

theorem dot_zero_right (u v : List ℝ) (h : ∀ x ∈ v, x = 0) : dot u v = 0 := by
  induction u generalizing v with
  | nil => simp [dot]
  | cons x xs ih =>
    cases v with
    | nil => simp [dot]
    | cons y ys =>
      have hy : y = 0 := h y (List.mem_cons_self y ys)
      have := ih ys (fun z hz => h z (List.mem_cons_of_mem y hz))
      simp [dot, hy, this]

theorem l2normalize_zero (v : List ℝ) (h : ∀ x ∈ v, x = 0) :
    l2normalize v = v := by
  unfold l2normalize
  conv_rhs => rw [← List.map_id v]
  apply List.map_congr_left
  intro a ha
  rw [h a ha]
  simp

theorem dot_map_div (v w : List ℝ) (c : ℝ) :
    dot (v.map (fun x => x / c)) (w.map (fun x => x / c)) = dot v w / (c * c) := by
  induction v generalizing w with
  | nil => simp [dot]
  | cons x xs ih =>
    cases w with
    | nil => simp [dot, dot_nil_right]
    | cons y ys =>
      simp only [List.map_cons, dot, ih ys]
      rw [div_mul_div_comm, div_add_div_same]

theorem unit_dot (v : List ℝ) (h : 0 < dot v v) :
    dot (l2normalize v) (l2normalize v) = 1 := by
  unfold l2normalize
  rw [dot_map_div, Real.mul_self_sqrt (le_of_lt h), div_self (ne_of_gt h)]

/-- The local variable `sims` of `QnAModel.get_answer`: the cosine
similarities of the (processed) query against every document row. -/
noncomputable def simsOf (fit : Fit) (M : List (List ℝ)) (q : String) :
    List ℝ :=
  cosineSimilarity (transform fit (preprocessText q)) M

theorem getD_of_lt (l : List ℝ) (j : Nat) (hj : j < l.length) :
    l.getD j 0 = l.get ⟨j, hj⟩ := by
  rw [List.getD_eq_getElem?_getD, List.getElem?_eq_getElem hj]
  rfl

/-! ## Concrete evaluation helpers for a one-entry corpus -/

theorem vocab_hi : vocabOf ["hi"] = ["hi"] := by decide

theorem idf_hi : idfOf ["hi"] = [1] := by
  rw [idfOf, vocab_hi]
  simp only [List.map_cons, List.map_nil]
  rw [show dfCount ["hi"] "hi" = 1 from by decide]
  norm_num [Real.log_one]

theorem raw_hi : rawOf ["hi"] "hi" = [1] := by
  rw [rawOf, vocab_hi, idf_hi]
  rw [show sklearnTokenize "hi" = ["hi"] from rfl]
  simp [rawRow]

theorem l2n_one : l2normalize [(1 : ℝ)] = [1] := by
  simp [l2normalize, dot, Real.sqrt_one]

theorem matrix_hi : matrixOf ["hi"] = [[1]] := by
  rw [matrixOf]
  simp [raw_hi, l2n_one]

theorem loadAndTrain_hi :
    loadAndTrain initState (some ["hi:hello"]) = stateW := by
  rw [loadAndTrain]
  rw [show parsePairs ["hi:hello"] = [⟨"hi", "hello"⟩] from by decide]
  rw [if_neg (by decide)]
  rw [trainOn]
  rw [show ([(⟨"hi", "hello"⟩ : Entry)].map
    (fun e => preprocessText e.question)) = ["hi"] from by decide]
  rw [fitTransform, if_neg (by decide)]
  rw [stateW, fitW]
  rw [show fitOf ["hi"] = ⟨["hi"], [1]⟩ from by rw [fitOf, vocab_hi, idf_hi]]
  rw [matrix_hi]

theorem transform_fitW_hi : transform fitW "hi" = [1] := by
  rw [transform, fitW]
  rw [show sklearnTokenize "hi" = ["hi"] from rfl]
  simp [rawRow, l2n_one]

theorem cos_one : cosineSimilarity [(1 : ℝ)] [[1]] = [1] := by
  simp [cosineSimilarity, l2n_one, dot]

theorem getAnswer_degraded (s : ModelState) (q : String)
    (h : s.dataset = [] ∨ s.vectorizer = none ∨ s.X = none) :
    getAnswer s q = Except.ok none := by
  obtain ⟨ds, vec, X⟩ := s
  unfold getAnswer
  rcases vec with _ | ov
  · simp [getAnswerCore]
  · rcases X with _ | M
    · simp [getAnswerCore]
    · rcases h with h | h | h
      · simp only at h
        simp [getAnswerCore, h]
      · exact absurd h (by simp)
      · exact absurd h (by simp)

theorem loadAndTrain_empty_parse (s : ModelState) (raw : List String)
    (h : parsePairs raw = []) : loadAndTrain s (some raw) = s := by
  rw [loadAndTrain, if_pos h]

theorem getAnswer_stateW_hi :
    getAnswer stateW "hi" = Except.ok (some "hello") := by
  rw [getAnswer]
  rw [show stateW.vectorizer = some (some fitW) from rfl,
      show stateW.X = some [[(1 : ℝ)]] from rfl,
      show stateW.dataset = [⟨"hi", "hello"⟩] from rfl]
  simp only [getAnswerCore]
  rw [show preprocessText "hi" = "hi" from by decide]
  rw [transform_fitW_hi, cos_one]
  rw [if_neg (show ¬([(⟨"hi", "hello"⟩ : Entry)] = []) from by decide)]
  norm_num [argmax, argmaxAux]

/-! ## Claim theorems -/

/-- Claim C1, amended: for every built state with a fitted vectorizer, a
non-empty dataset and a consistent matrix, `get_answer` scores the query
against every document (one similarity per row), `argmax` picks an in-range
index attaining the maximal similarity with every strictly earlier index
strictly below it (so ties break to the lowest corpus index, and the result
is a deterministic function of state and query), and the returned value is
`None` when the maximal similarity is strictly below 0.15 and that document's
answer otherwise.  The claim as stated is false of `model.py`'s `get_answer`,
which applies no threshold (see the counterexample). -/
theorem c1_threshold_and_first_argmax (s : ModelState) (fit : Fit)
    (M : List (List ℝ)) (q : String)
    (hv : s.vectorizer = some (some fit)) (hX : s.X = some M)
    (hd : s.dataset ≠ []) (hlen : M.length = s.dataset.length) :
    (simsOf fit M q).length = M.length ∧
    argmax (simsOf fit M q) < s.dataset.length ∧
    (∀ j, j < (simsOf fit M q).length →
      (simsOf fit M q).getD j 0 ≤
        (simsOf fit M q).getD (argmax (simsOf fit M q)) 0) ∧
    (∀ j, j < argmax (simsOf fit M q) →
      (simsOf fit M q).getD j 0 <
        (simsOf fit M q).getD (argmax (simsOf fit M q)) 0) ∧
    getAnswer s q = Except.ok
      (if (simsOf fit M q).getD (argmax (simsOf fit M q)) 0 < (0.15 : ℝ) then
        none
       else Option.map Entry.answer s.dataset[argmax (simsOf fit M q)]?) := by
  have hslen : (simsOf fit M q).length = M.length := by
    simp [simsOf, cosineSimilarity]
  have hM : M ≠ [] := by
    intro h
    rw [h] at hlen
    exact hd (List.eq_nil_of_length_eq_zero hlen.symm)
  rcases hs : simsOf fit M q with _ | ⟨sim0, simRest⟩
  · rw [hs] at hslen
    exact absurd (List.eq_nil_of_length_eq_zero hslen.symm) hM
  rw [hs] at hslen
  rcases argmax_spec sim0 simRest with ⟨hb, hmax, hfirst⟩
  have hbd : argmax (sim0 :: simRest) < s.dataset.length := by
    rw [← hlen, ← hslen]; exact hb
  refine ⟨hslen, hbd, ?_, ?_, ?_⟩
  · intro j hj
    rw [getD_of_lt _ _ hj, getD_of_lt _ _ hb]
    exact hmax j hj
  · intro j hj
    rw [getD_of_lt _ _ (Nat.lt_trans hj hb), getD_of_lt _ _ hb]
    exact hfirst j hj
  · unfold getAnswer
    rw [hv, hX]
    have hcos : cosineSimilarity (transform fit (preprocessText q)) M =
        sim0 :: simRest := hs
    simp only [getAnswerCore, hcos, if_neg hd, ← List.getD_eq_getElem?_getD]
    by_cases ht :
        (sim0 :: simRest).getD (argmax (sim0 :: simRest)) 0 < (0.15 : ℝ)
    · simp only [if_pos ht]
    · simp only [if_neg ht, List.getElem?_eq_getElem hbd]
      simp [Option.map]

theorem c1_threshold_and_first_argmax_witness :
    (stateW.vectorizer = some (some fitW) ∧ stateW.X = some [[(1 : ℝ)]] ∧
     stateW.dataset ≠ [] ∧
     ([[(1 : ℝ)]] : List (List ℝ)).length = stateW.dataset.length) ∧
    ((simsOf fitW [[(1 : ℝ)]] "hi").length =
        ([[(1 : ℝ)]] : List (List ℝ)).length ∧
     argmax (simsOf fitW [[(1 : ℝ)]] "hi") < stateW.dataset.length ∧
     (∀ j, j < (simsOf fitW [[(1 : ℝ)]] "hi").length →
       (simsOf fitW [[(1 : ℝ)]] "hi").getD j 0 ≤
         (simsOf fitW [[(1 : ℝ)]] "hi").getD
           (argmax (simsOf fitW [[(1 : ℝ)]] "hi")) 0) ∧
     (∀ j, j < argmax (simsOf fitW [[(1 : ℝ)]] "hi") →
       (simsOf fitW [[(1 : ℝ)]] "hi").getD j 0 <
         (simsOf fitW [[(1 : ℝ)]] "hi").getD
           (argmax (simsOf fitW [[(1 : ℝ)]] "hi")) 0) ∧
     getAnswer stateW "hi" = Except.ok
       (if (simsOf fitW [[(1 : ℝ)]] "hi").getD
            (argmax (simsOf fitW [[(1 : ℝ)]] "hi")) 0 < (0.15 : ℝ) then
          none
        else Option.map Entry.answer
          stateW.dataset[argmax (simsOf fitW [[(1 : ℝ)]] "hi")]?)) := by
  have hd : stateW.dataset ≠ [] := by
    intro h
    exact absurd (congrArg List.length h) (by simp [stateW])
  exact ⟨⟨rfl, rfl, hd, rfl⟩,
    c1_threshold_and_first_argmax stateW fitW [[1]] "hi" rfl rfl hd rfl⟩

theorem rawRow_count_zero (vocab : List String) (idf : List ℝ)
    (toks : List String) (h : ∀ t ∈ vocab, toks.count t = 0) :
    ∀ x ∈ rawRow vocab idf toks, x = 0 := by
  induction vocab generalizing idf with
  | nil => simp [rawRow]
  | cons t ts ih =>
    cases idf with
    | nil => simp [rawRow]
    | cons w ws =>
      intro x hx
      rcases List.mem_cons.mp hx with rfl | hmem
      · have : toks.count t = 0 := h t (List.mem_cons_self t ts)
        simp [this]
      · exact ih ws (fun u hu => h u (List.mem_cons_of_mem t hu)) x hmem

/-- Claim C1, counterexample: `model.py`'s `get_answer` (reached through
`mind`) returns the first corpus answer for the query "zz", whose only token
is outside the vocabulary, so every cosine similarity is zero — strictly
below the threshold 0.15 at which the claim requires `None`. -/
theorem c1_model_py_no_threshold_counterexample :
    mindAnswer (some ["hi:hello"]) "zz" = Except.ok "hello" := by rfl

/-- A query whose normalization is empty yields an all-zero vector, every
similarity is zero, and the threshold rejects the match. -/
theorem getAnswer_zero_terms (s : ModelState) (fit : Fit)
    (M : List (List ℝ)) (q : String)
    (hv : s.vectorizer = some (some fit)) (hX : s.X = some M)
    (hlen : M.length = s.dataset.length) (hq : preprocessText q = "") :
    getAnswer s q = Except.ok none := by
  unfold getAnswer
  rw [hv, hX]
  by_cases hds : s.dataset = []
  · simp [getAnswerCore, hds]
  · have hqz : ∀ x ∈ transform fit (preprocessText q), x = 0 := by
      rw [hq]
      unfold transform
      have htok : sklearnTokenize "" = [] := rfl
      rw [htok]
      have hraw : ∀ y ∈ rawRow fit.vocab fit.idf [], y = 0 :=
        rawRow_count_zero _ _ _ (fun t _ => List.count_nil t)
      rw [l2normalize_zero _ hraw]
      exact hraw
    have hsims : ∀ x ∈ cosineSimilarity (transform fit (preprocessText q)) M,
        x = 0 := by
      intro x hx
      rcases List.mem_map.mp hx with ⟨r, hr, rfl⟩
      rw [l2normalize_zero _ hqz]
      exact dot_zero_left _ _ hqz
    rcases hcos : cosineSimilarity (transform fit (preprocessText q)) M with
      _ | ⟨s0, srest⟩
    · exfalso
      have hM : M = [] := List.map_eq_nil_iff.mp hcos
      rw [hM] at hlen
      exact hds (List.eq_nil_of_length_eq_zero hlen.symm)
    · rw [hcos] at hsims
      rcases argmax_spec s0 srest with ⟨hb, _, _⟩
      have hscore : (s0 :: srest).getD (argmax (s0 :: srest)) 0 = 0 := by
        rw [getD_of_lt _ _ hb]
        exact hsims _ (List.get_mem _ _ _)
      simp only [getAnswerCore, hcos, if_neg hds,
        ← List.getD_eq_getElem?_getD, hscore]
      rw [if_pos (by norm_num)]

/-- Claim C5, amended: for every state with a fitted vectorizer and a
document matrix consistent with the dataset, `main.py`'s `get_answer`
returns `None` on any query whose normalization yields zero terms (the
empty string, whitespace-only and punctuation-only input included): the
query vector is all-zero, every cosine similarity is zero, and zero is
strictly below the 0.15 threshold.  The claim as stated is false of
`model.py`'s `get_answer`, which has no threshold (see the
counterexample). -/
theorem c5_zero_term_query_none (s : ModelState) (fit : Fit)
    (M : List (List ℝ)) (q : String)
    (hv : s.vectorizer = some (some fit)) (hX : s.X = some M)
    (hlen : M.length = s.dataset.length) (hq : preprocessText q = "") :
    getAnswer s q = Except.ok none :=
  getAnswer_zero_terms s fit M q hv hX hlen hq

theorem c5_zero_term_query_none_witness :
    (stateW.vectorizer = some (some fitW) ∧ stateW.X = some [[(1 : ℝ)]] ∧
     ([[(1 : ℝ)]] : List (List ℝ)).length = stateW.dataset.length ∧
     preprocessText " ?! " = "") ∧
    getAnswer stateW " ?! " = Except.ok none :=
  ⟨⟨rfl, rfl, rfl, by decide⟩,
    c5_zero_term_query_none stateW fitW [[1]] " ?! " rfl rfl rfl (by decide)⟩

/-- Claim C5, counterexample: `model.py`'s `get_answer` returns the first
corpus answer even for the empty query, whose normalization yields zero
terms and whose similarity to every document is therefore zero. -/
theorem c5_model_py_empty_query_counterexample :
    mindAnswer (some ["hi:hello"]) "" = Except.ok "hello" := by rfl

/-- Claim C2, amended: `get_answer` returns `None` whenever the dataset is
empty or the vectorizer or matrix is missing, and a fresh model built from a
file whose parse yields no pairs answers `None` on every query; but
re-invoking `_load_and_train` with an empty parse result returns early and
leaves an already-built state entirely in place (so subsequent answers can be
non-`None`, see the counterexample). -/
theorem c2_unbuilt_or_empty_none :
    (∀ s q, s.dataset = [] ∨ s.vectorizer = none ∨ s.X = none →
      getAnswer s q = Except.ok none) ∧
    (∀ raw q, parsePairs raw = [] →
      getAnswer (loadAndTrain initState (some raw)) q = Except.ok none) ∧
    (∀ s raw, parsePairs raw = [] → loadAndTrain s (some raw) = s) := by
  refine ⟨getAnswer_degraded, ?_, loadAndTrain_empty_parse⟩
  intro raw q h
  rw [loadAndTrain_empty_parse initState raw h]
  exact getAnswer_degraded initState q (Or.inl rfl)

theorem c2_unbuilt_or_empty_none_witness :
    (initState.dataset = [] ∨ initState.vectorizer = none ∨
      initState.X = none) ∧
    getAnswer initState "anything" = Except.ok none :=
  ⟨Or.inl rfl, c2_unbuilt_or_empty_none.1 initState "anything" (Or.inl rfl)⟩

/-- Claim C2, counterexample: rebuilding an already-trained model from a file
whose parse result is empty does NOT make subsequent answers `None` — the
early return keeps the old dataset, vectorizer and matrix, and the old
corpus keeps answering. -/
theorem c2_rebuild_empty_parse_counterexample :
    parsePairs [""] = [] ∧
    loadAndTrain (loadAndTrain initState (some ["hi:hello"])) (some [""]) =
      loadAndTrain initState (some ["hi:hello"]) ∧
    getAnswer (loadAndTrain (loadAndTrain initState (some ["hi:hello"]))
      (some [""])) "hi" = Except.ok (some "hello") ∧
    (Except.ok (some "hello") : Except Unit (Option String)) ≠
      Except.ok none := by
  have hstep : loadAndTrain stateW (some [""]) = stateW := by
    rw [loadAndTrain, if_pos (show parsePairs [""] = [] from by decide)]
  refine ⟨by decide, ?_, ?_, by simp⟩
  · rw [loadAndTrain_hi, hstep]
  · rw [loadAndTrain_hi, hstep]
    exact getAnswer_stateW_hi

/-- Claim C10, confirmed: whenever `get_answer` returns a non-`None` result
without raising, that result is exactly the `answer` field of a dataset
entry (the one at the selected index); `get_answer` never fabricates,
transforms or truncates answer text. -/
theorem c10_answers_come_from_corpus (s : ModelState) (q a : String)
    (h : getAnswer s q = Except.ok (some a)) :
    ∃ i, ∃ hi : i < s.dataset.length, (s.dataset.get ⟨i, hi⟩).answer = a := by
  obtain ⟨ds, vec, X⟩ := s
  unfold getAnswer at h
  rcases vec with _ | ov
  · simp [getAnswerCore] at h
  · rcases X with _ | M
    · simp [getAnswerCore] at h
    · rcases ov with _ | fit
      · by_cases hds : ds = [] <;> simp [getAnswerCore, hds] at h
      · simp only [getAnswerCore] at h
        split at h
        · simp at h
        · split at h
          · simp at h
          · rename_i sim0 simRest hcos
            split at h
            · simp at h
            · split at h
              · rename_i e he
                simp only [Except.ok.injEq, Option.some.injEq] at h
                have hlt : argmax (sim0 :: simRest) < ds.length :=
                  (List.getElem?_eq_some_iff.mp he).choose
                refine ⟨argmax (sim0 :: simRest), hlt, ?_⟩
                have hget : ds[argmax (sim0 :: simRest)] = e :=
                  (List.getElem?_eq_some_iff.mp he).choose_spec
                rw [show ds.get ⟨argmax (sim0 :: simRest), hlt⟩ =
                  ds[argmax (sim0 :: simRest)] from rfl, hget, h]
              · simp at h

theorem c10_answers_come_from_corpus_witness :
    getAnswer stateW "hi" = Except.ok (some "hello") ∧
    (∃ i, ∃ hi : i < stateW.dataset.length,
      (stateW.dataset.get ⟨i, hi⟩).answer = "hello") :=
  ⟨getAnswer_stateW_hi,
    c10_answers_come_from_corpus stateW "hi" "hello" getAnswer_stateW_hi⟩

/-- Claim C9, amended: in `main.py` an unreadable or missing corpus source is
logged and swallowed inside `_load_and_train` — no error of any kind reaches
the caller (the function returns normally with the state unchanged) and the
assistant continues in degraded no-QnA mode in which every answer is `None`;
no `CorpusLoadError` type exists anywhere in the repository.  In `model.py`,
`load_dataset` propagates the raw I/O error to its caller and `mind` does not
continue in a degraded mode (see the counterexample). -/
theorem c9_load_failure_swallowed :
    (∀ s, loadAndTrain s none = s) ∧
    (∀ q, getAnswer (loadAndTrain initState none) q = Except.ok none) ∧
    modelLoadDataset none = Except.error "unreadable" := by
  refine ⟨fun s => rfl, ?_, rfl⟩
  intro q
  rw [show loadAndTrain initState none = initState from rfl]
  exact getAnswer_degraded initState q (Or.inl rfl)

/-- Claim C9, counterexample: the `model.py` pipeline terminates with the
propagated load error on a missing file instead of surfacing a dedicated
`CorpusLoadError` and continuing in a degraded mode. -/
theorem c9_model_py_propagates_counterexample :
    mindAnswer none "hello" = Except.error "unreadable" := by rfl

/-! ## String lemmas for the corpus-loader claim -/

theorem dropWhile_len_le (p : Char → Bool) (l : List Char) :
    (l.dropWhile p).length ≤ l.length := by
  induction l with
  | nil => simp
  | cons c t ih =>
    by_cases hc : p c = true
    · rw [List.dropWhile_cons_of_pos hc]
      exact le_trans ih (by simp)
    · rw [List.dropWhile_cons_of_neg (by simp [hc])]

theorem dropWhile_fix_head (p : Char → Bool) (c : Char) (t : List Char)
    (h : (c :: t).dropWhile p = c :: t) : p c = false := by
  by_cases hc : p c = true
  · rw [List.dropWhile_cons_of_pos hc] at h
    have hlen := congrArg List.length h
    have hle := dropWhile_len_le p t
    simp at hlen
    omega
  · simpa using hc

/-- A string fixed by `strip` has neither leading nor trailing
whitespace. -/
theorem strip_fix (s : String) (h : pyStrip s = s) :
    s.data.dropWhile Char.isWhitespace = s.data ∧
    s.data.reverse.dropWhile Char.isWhitespace = s.data.reverse := by
  have hdata : ((s.data.dropWhile Char.isWhitespace).reverse.dropWhile
      Char.isWhitespace).reverse = s.data := congrArg String.data h
  have h1 : (s.data.dropWhile Char.isWhitespace).length ≤ s.data.length :=
    dropWhile_len_le _ _
  have h2 : ((s.data.dropWhile Char.isWhitespace).reverse.dropWhile
      Char.isWhitespace).length ≤
      (s.data.dropWhile Char.isWhitespace).length := by
    simpa using
      dropWhile_len_le Char.isWhitespace
        (s.data.dropWhile Char.isWhitespace).reverse
  have h3 : ((s.data.dropWhile Char.isWhitespace).reverse.dropWhile
      Char.isWhitespace).length = s.data.length := by
    have := congrArg List.length hdata
    simpa using this
  have hfix : s.data.dropWhile Char.isWhitespace = s.data :=
    List.IsSuffix.eq_of_length (List.dropWhile_suffix _) (by omega)
  refine ⟨hfix, ?_⟩
  rw [hfix] at hdata
  have := congrArg List.reverse hdata
  simpa using this

theorem dropWhile_ws_append (l r : List Char)
    (hl : l.dropWhile Char.isWhitespace = l)
    (hr : r.dropWhile Char.isWhitespace = r) :
    (l ++ r).dropWhile Char.isWhitespace = l ++ r := by
  cases l with
  | nil => simpa using hr
  | cons c t =>
    have hc : Char.isWhitespace c = false := dropWhile_fix_head _ c t hl
    rw [List.cons_append, List.dropWhile_cons_of_neg (by simp [hc])]

theorem line_data (q a : String) :
    (q ++ ":" ++ a).data = q.data ++ ':' :: a.data := by
  simp [String.data_append]

/-- Stripping a line `q:a` whose fields are already stripped changes
nothing. -/
theorem pyStrip_colon_line (q a : String) (hsq : pyStrip q = q)
    (hsa : pyStrip a = a) :
    pyStrip (q ++ ":" ++ a) = q ++ ":" ++ a := by
  obtain ⟨HLq, HRq⟩ := strip_fix q hsq
  obtain ⟨HLa, HRa⟩ := strip_fix a hsa
  have hcolon : (':' :: a.data).dropWhile Char.isWhitespace = ':' :: a.data :=
    List.dropWhile_cons_of_neg (by simp)
  have hcolon2 : (':' :: q.data.reverse).dropWhile Char.isWhitespace =
      ':' :: q.data.reverse := List.dropWhile_cons_of_neg (by simp)
  unfold pyStrip
  rw [show (q ++ ":" ++ a).toList = q.data ++ ':' :: a.data from line_data q a]
  rw [dropWhile_ws_append q.data (':' :: a.data) HLq hcolon]
  rw [show (q.data ++ ':' :: a.data).reverse =
    a.data.reverse ++ ':' :: q.data.reverse by simp]
  rw [dropWhile_ws_append a.data.reverse (':' :: q.data.reverse) HRa hcolon2]
  rw [show (a.data.reverse ++ ':' :: q.data.reverse).reverse =
    q.data ++ ':' :: a.data by simp]
  rw [← line_data q a]

theorem takeWhile_ne_colon (l r : List Char) (h : ':' ∉ l) :
    (l ++ ':' :: r).takeWhile (fun c => c ≠ ':') = l ∧
    (l ++ ':' :: r).dropWhile (fun c => c ≠ ':') = ':' :: r := by
  induction l with
  | nil => constructor <;> simp
  | cons c t ih =>
    have hc : c ≠ ':' := fun hh => h (hh ▸ List.mem_cons_self c t)
    have ih2 := ih (fun hm => h (List.mem_cons_of_mem c hm))
    constructor
    · rw [List.cons_append, List.takeWhile_cons_of_pos (by simp [hc]), ih2.1]
    · rw [List.cons_append, List.dropWhile_cons_of_pos (by simp [hc]), ih2.2]

/-- Splitting on the first colon of `q:a` for a colon-free `q` yields
exactly `q` and `a` — `a` may itself contain colons. -/
theorem splitFirstColon_line (q a : String) (hq : ':' ∉ q.toList) :
    splitFirstColon (q ++ ":" ++ a) = (q, a) := by
  unfold splitFirstColon
  rw [show (q ++ ":" ++ a).toList = q.data ++ ':' :: a.data from line_data q a]
  obtain ⟨h1, h2⟩ := takeWhile_ne_colon q.data a.data hq
  rw [h1, h2]
  rfl

theorem parsePairs_append (xs ys : List String) :
    parsePairs (xs ++ ys) = parsePairs xs ++ parsePairs ys := by
  unfold parsePairs
  simp [List.filter_append, List.filterMap_append]

theorem parsePairs_no_colon (l : String)
    (h : (pyStrip l).toList.contains ':' = false) : parsePairs [l] = [] := by
  unfold parsePairs
  simp only [List.map_cons, List.map_nil]
  by_cases he : pyStrip l = ""
  · simp [he]
  · simp [he]
    simpa using h

theorem parsePairs_colon_line (q a : String) (hq : ':' ∉ q.toList)
    (hsq : pyStrip q = q) (hsa : pyStrip a = a) :
    parsePairs [q ++ ":" ++ a] = [⟨q, a⟩] := by
  unfold parsePairs
  simp only [List.map_cons, List.map_nil]
  rw [pyStrip_colon_line q a hsq hsa]
  have hne : (q ++ ":" ++ a) ≠ "" := by
    intro hh
    have hd := congrArg String.data hh
    rw [line_data q a] at hd
    simp at hd
  have hcontains : (q ++ ":" ++ a).toList.contains ':' = true := by
    rw [show (q ++ ":" ++ a).toList = q.data ++ ':' :: a.data from
      line_data q a]
    simp
  rw [List.filter_cons_of_pos (by simp [hne])]
  simp only [List.filter_nil, List.filterMap_cons, List.filterMap_nil]
  simp [hcontains, splitFirstColon_line q a hq, hsq, hsa]

/-- Claim C3, amended: `main.py`'s loader behaves exactly as claimed — it
works line by line, silently skips blank lines and lines whose stripped form
has no colon, and splits every other line at its FIRST colon into a trimmed
question and a trimmed answer that may itself contain colons.  `model.py`'s
`load_dataset`, however, splits on EVERY colon and raises `ValueError` on any
line with more than one colon, and it does not trim the two fields (see the
counterexample). -/
theorem c3_first_colon_split :
    (∀ xs ys, parsePairs (xs ++ ys) = parsePairs xs ++ parsePairs ys) ∧
    (∀ l, (pyStrip l).toList.contains ':' = false → parsePairs [l] = []) ∧
    (∀ q a, ':' ∉ q.toList → pyStrip q = q → pyStrip a = a →
      parsePairs [q ++ ":" ++ a] = [⟨q, a⟩]) ∧
    parsePairs ["  who are you : I am: Isha  "] =
      [⟨"who are you", "I am: Isha"⟩] :=
  ⟨parsePairs_append, parsePairs_no_colon, parsePairs_colon_line, by decide⟩

theorem c3_first_colon_split_witness :
    ((pyStrip "no colon line").toList.contains ':' = false ∧
     parsePairs ["no colon line"] = []) ∧
    (':' ∉ "q1".toList ∧ pyStrip "q1" = "q1" ∧ pyStrip "a:b:c" = "a:b:c" ∧
     parsePairs ["q1" ++ ":" ++ "a:b:c"] = [⟨"q1", "a:b:c"⟩]) :=
  ⟨⟨by decide, c3_first_colon_split.2.1 "no colon line" (by decide)⟩,
   ⟨by decide, by decide, by decide,
    c3_first_colon_split.2.2.1 "q1" "a:b:c" (by decide) (by decide)
      (by decide)⟩⟩

/-- Claim C3, counterexample: on the line `q:a:b` the claim demands the pair
(question `q`, answer `a:b`); `main.py`'s loader produces it, but
`model.py`'s `load_dataset` raises `ValueError` instead of parsing it. -/
theorem c3_model_py_every_colon_counterexample :
    modelLoadDataset (some ["q:a:b"]) = Except.error "ValueError" ∧
    parsePairs ["q:a:b"] = [⟨"q", "a:b"⟩] := ⟨by rfl, by decide⟩

theorem getD_lt {α : Type} (l : List α) (j : Nat) (d : α)
    (hj : j < l.length) : l.getD j d = l[j] := by
  rw [List.getD_eq_getElem?_getD, List.getElem?_eq_getElem hj]
  rfl

/-- Claim C8, amended: fitting raises exactly when the vocabulary is empty —
in particular a corpus in which EVERY question normalizes to nothing (only
stop-words or punctuation) makes `fit_transform` raise, which `main.py`
catches, leaving the matcher unbuilt (every answer `None`,
see the counterexample).  When the vocabulary is non-empty the construction
succeeds, and a document that normalizes to nothing receives an all-zero
vector whose cosine similarity against ANY query vector is zero — never a
confident match. -/
theorem c8_empty_vocab_and_zero_rows (docs : List String) :
    (vocabOf docs = [] → fitTransform docs = Except.error "empty vocabulary") ∧
    (vocabOf docs ≠ [] →
      fitTransform docs = Except.ok (fitOf docs, matrixOf docs)) ∧
    (∀ i, i < docs.length → docs.getD i "" = "" →
      (∀ x ∈ (matrixOf docs).getD i [], x = 0) ∧
      (∀ u, dot (l2normalize u) (l2normalize ((matrixOf docs).getD i [])) =
        0)) := by
  refine ⟨fun h => by rw [fitTransform, if_pos h],
    fun h => by rw [fitTransform, if_neg h], ?_⟩
  intro i hi hdoc
  have hmlen : i < (matrixOf docs).length := by
    simpa [matrixOf] using hi
  have hrow : (matrixOf docs).getD i [] =
      l2normalize (rawOf docs (docs.getD i "")) := by
    rw [getD_lt _ _ _ hmlen, getD_lt _ _ _ hi]
    simp [matrixOf]
  have hzero : ∀ x ∈ rawOf docs (docs.getD i ""), x = 0 := by
    rw [hdoc]
    unfold rawOf
    rw [show sklearnTokenize "" = [] from rfl]
    exact rawRow_count_zero _ _ _ (fun t _ => List.count_nil t)
  rw [hrow, l2normalize_zero _ hzero]
  refine ⟨hzero, ?_⟩
  intro u
  rw [l2normalize_zero _ hzero]
  exact dot_zero_right _ _ hzero

theorem c8_empty_vocab_and_zero_rows_witness :
    (vocabOf ["hi", ""] ≠ [] ∧ 1 < (["hi", ""] : List String).length ∧
     (["hi", ""] : List String).getD 1 "" = "") ∧
    (fitTransform ["hi", ""] =
      Except.ok (fitOf ["hi", ""], matrixOf ["hi", ""]) ∧
     (∀ x ∈ (matrixOf ["hi", ""]).getD 1 [], x = 0) ∧
     (∀ u, dot (l2normalize u)
        (l2normalize ((matrixOf ["hi", ""]).getD 1 [])) = 0)) :=
  ⟨⟨by decide, by decide, by decide⟩,
   ⟨(c8_empty_vocab_and_zero_rows ["hi", ""]).2.1 (by decide),
    ((c8_empty_vocab_and_zero_rows ["hi", ""]).2.2 1 (by decide)
      (by decide)).1,
    ((c8_empty_vocab_and_zero_rows ["hi", ""]).2.2 1 (by decide)
      (by decide)).2⟩⟩

/-- Claim C8, counterexample: a corpus whose single question is
punctuation-only normalizes to an empty document; the vocabulary is empty
and `fit_transform` raises instead of building all-zero document vectors.
`main.py` catches the exception: the resulting state keeps `X = None`
(with the new dataset and a fresh unfitted vectorizer in place) and every
answer is `None` — the matcher is unbuilt, not built-with-zero-vectors. -/
theorem c8_empty_vocabulary_raises_counterexample :
    fitTransform ((parsePairs ["???:bang"]).map
      (fun e => preprocessText e.question)) =
      Except.error "empty vocabulary" ∧
    loadAndTrain initState (some ["???:bang"]) =
      ⟨[⟨"???", "bang"⟩], some none, none⟩ ∧
    getAnswer (loadAndTrain initState (some ["???:bang"])) "hi" =
      Except.ok none := ⟨by rfl, by rfl, by rfl⟩

/-- Claim C6, confirmed: every output token of normalization is the Porter
stem of some token of the lower-cased, word-tokenized input that is purely
alphanumeric and not an English stop-word; two tokens sharing a stem
("running" and "run") normalize to the same output token; case is folded
("Running" and "running" normalize identically); stop-words ("the") and
non-alphanumeric tokens ("!") are discarded before stemming. -/
theorem c6_normalization_pipeline :
    (∀ s t, t ∈ normalizeTokens s →
      ∃ u ∈ wordTokenize (pyLower s), isAlnumTok u = true ∧
        stopWordsEN.contains u = false ∧ porterStem u = t) ∧
    porterStem "running" = porterStem "run" ∧
    porterStem "running" = "run" ∧
    preprocessText "Running" = preprocessText "running" ∧
    preprocessText "the running!" = "run" := by
  refine ⟨?_, by decide, by decide, by decide, by decide⟩
  intro s t ht
  unfold normalizeTokens at ht
  rcases List.mem_map.mp ht with ⟨u, hu, rfl⟩
  rcases List.mem_filter.mp hu with ⟨humem, hcond⟩
  rcases Bool.and_eq_true _ _ |>.mp hcond with ⟨h1, h2⟩
  refine ⟨u, humem, h1, ?_, rfl⟩
  simpa using h2

theorem c6_normalization_pipeline_witness :
    "run" ∈ normalizeTokens "The Running!" ∧
    (∃ u ∈ wordTokenize (pyLower "The Running!"), isAlnumTok u = true ∧
      stopWordsEN.contains u = false ∧ porterStem u = "run") :=
  ⟨by decide, c6_normalization_pipeline.1 "The Running!" "run" (by decide)⟩

/-! ## Lemmas for the TF-IDF weighting claim -/

theorem count_filter_mem (t : String) (vocab toks : List String)
    (h : vocab.contains t = true) :
    (toks.filter (fun x => vocab.contains x)).count t = toks.count t := by
  induction toks with
  | nil => rfl
  | cons x xs ih =>
    by_cases hx : vocab.contains x = true
    · rw [List.filter_cons_of_pos hx, List.count_cons, List.count_cons, ih]
    · rw [List.filter_cons_of_neg (by simpa using hx), List.count_cons, ih]
      have hne : ¬ x = t := fun he => hx (he ▸ h)
      simp [hne]

theorem zipWith_count_congr (vocab : List String) (idf : List ℝ)
    (f g : String → Nat) (h : ∀ t ∈ vocab, f t = g t) :
    List.zipWith (fun t w => (f t : ℝ) * w) vocab idf =
    List.zipWith (fun t w => (g t : ℝ) * w) vocab idf := by
  induction vocab generalizing idf with
  | nil => simp
  | cons v vs ih =>
    cases idf with
    | nil => simp
    | cons w ws =>
      simp only [List.zipWith_cons_cons]
      rw [h v (List.mem_cons_self v vs),
        ih ws (fun u hu => h u (List.mem_cons_of_mem v hu))]

/-- Tokens outside the vocabulary contribute nothing to a tf-idf row: the
row only depends on the tokens that lie in the vocabulary (no vocabulary
growth at query time). -/
theorem rawRow_filter_vocab (vocab : List String) (idf : List ℝ)
    (toks : List String) :
    rawRow vocab idf toks =
      rawRow vocab idf (toks.filter (fun t => vocab.contains t)) := by
  unfold rawRow
  exact zipWith_count_congr vocab idf _ _
    (fun t ht => (count_filter_mem t vocab toks (by simpa using ht)).symm)

/-- Every row of the fitted matrix is L2-normalized: all-zero or of unit
squared norm. -/
theorem matrixOf_rows_unit_or_zero (docs : List String) :
    ∀ r ∈ matrixOf docs, (∀ x ∈ r, x = 0) ∨ dot r r = 1 := by
  intro r hr
  rcases List.mem_map.mp hr with ⟨d, hd, rfl⟩
  by_cases hz : ∀ x ∈ rawOf docs d, x = 0
  · left
    rw [l2normalize_zero _ hz]
    exact hz
  · right
    push_neg at hz
    exact unit_dot _ (dot_self_pos _ hz)

/-- Claim C7, confirmed: a successful fit produces the vocabulary of all
analyzer tokens, the smoothed idf vector `log((1 + N) / (1 + df(t))) + 1`,
and one L2-normalized row `tf * idf` per document (all-zero or unit norm);
a query is projected with the same weighting over the fixed vocabulary —
tokens outside the vocabulary contribute zero (filtering them away changes
nothing) — L2-normalized, and scored by a dot product against every
document row (one similarity per row). -/
theorem c7_tfidf_weighting :
    (∀ docs fit M, fitTransform docs = Except.ok (fit, M) →
      fit.vocab = vocabOf docs ∧
      fit.idf = (vocabOf docs).map (fun t =>
        Real.log ((1 + (docs.length : ℝ)) / (1 + (dfCount docs t : ℝ))) + 1) ∧
      M = docs.map (fun d =>
        l2normalize (rawRow fit.vocab fit.idf (sklearnTokenize d))) ∧
      (∀ r ∈ M, (∀ x ∈ r, x = 0) ∨ dot r r = 1)) ∧
    (∀ vocab idf toks, rawRow vocab idf toks =
      rawRow vocab idf (toks.filter (fun t => vocab.contains t))) ∧
    (∀ fit q, transform fit q =
      l2normalize (rawRow fit.vocab fit.idf (sklearnTokenize q))) ∧
    (∀ u M, (cosineSimilarity u M).length = M.length ∧
      cosineSimilarity u M =
        M.map (fun r => dot (l2normalize u) (l2normalize r))) := by
  refine ⟨?_, rawRow_filter_vocab, fun fit q => rfl,
    fun u M => ⟨by simp [cosineSimilarity], rfl⟩⟩
  intro docs fit M h
  rw [fitTransform] at h
  by_cases hv : vocabOf docs = []
  · rw [if_pos hv] at h
    exact absurd h (by simp)
  · rw [if_neg hv] at h
    have h2 := Except.ok.inj h
    have hf : fitOf docs = fit := congrArg Prod.fst h2
    have hM : matrixOf docs = M := congrArg Prod.snd h2
    subst hf
    subst hM
    exact ⟨rfl, rfl, rfl, matrixOf_rows_unit_or_zero docs⟩

theorem c7_tfidf_weighting_witness :
    fitTransform ["hi"] = Except.ok (fitOf ["hi"], matrixOf ["hi"]) ∧
    ((fitOf ["hi"]).vocab = vocabOf ["hi"] ∧
     (fitOf ["hi"]).idf = (vocabOf ["hi"]).map (fun t =>
       Real.log ((1 + ((["hi"] : List String).length : ℝ)) /
         (1 + (dfCount ["hi"] t : ℝ))) + 1) ∧
     matrixOf ["hi"] = (["hi"] : List String).map (fun d =>
       l2normalize (rawRow (fitOf ["hi"]).vocab (fitOf ["hi"]).idf
         (sklearnTokenize d))) ∧
     (∀ r ∈ matrixOf ["hi"], (∀ x ∈ r, x = 0) ∨ dot r r = 1)) := by
  have hok : fitTransform ["hi"] =
      Except.ok (fitOf ["hi"], matrixOf ["hi"]) := by
    rw [fitTransform, if_neg (by decide)]
  exact ⟨hok,
    c7_tfidf_weighting.1 ["hi"] (fitOf ["hi"]) (matrixOf ["hi"]) hok⟩

/-! ## Lemmas for the exact-question reflexivity claim -/

theorem dot_l2n_disjoint (a b : ℝ) :
    dot (l2normalize (l2normalize [a, 0]))
        (l2normalize (l2normalize [0, b])) = 0 := by
  simp [l2normalize, dot]

theorem docsW : docsOf pairsW = ["hi", "yo"] := by decide

theorem vocabW : vocabOf ["hi", "yo"] = ["hi", "yo"] := by decide

theorem idfW : idfOf ["hi", "yo"] =
    [Real.log (3 / 2) + 1, Real.log (3 / 2) + 1] := by
  rw [idfOf, vocabW]
  simp only [List.map_cons, List.map_nil]
  rw [show dfCount ["hi", "yo"] "hi" = 1 from by decide,
      show dfCount ["hi", "yo"] "yo" = 1 from by decide]
  norm_num

theorem logW_pos : (0 : ℝ) < Real.log (3 / 2) + 1 := by
  have := Real.log_pos (by norm_num : (1 : ℝ) < 3 / 2)
  linarith

theorem rawW0 : rawOf ["hi", "yo"] "hi" = [Real.log (3 / 2) + 1, 0] := by
  rw [rawOf, vocabW, idfW]
  rw [show sklearnTokenize "hi" = ["hi"] from rfl]
  unfold rawRow
  simp only [List.zipWith_cons_cons, List.zipWith_nil_right]
  rw [show (["hi"] : List String).count "hi" = 1 from by decide,
      show (["hi"] : List String).count "yo" = 0 from by decide]
  norm_num

theorem rawW1 : rawOf ["hi", "yo"] "yo" = [0, Real.log (3 / 2) + 1] := by
  rw [rawOf, vocabW, idfW]
  rw [show sklearnTokenize "yo" = ["yo"] from rfl]
  unfold rawRow
  simp only [List.zipWith_cons_cons, List.zipWith_nil_right]
  rw [show (["yo"] : List String).count "hi" = 0 from by decide,
      show (["yo"] : List String).count "yo" = 1 from by decide]
  norm_num

theorem matrixW : matrixOf (docsOf pairsW) =
    [l2normalize [Real.log (3 / 2) + 1, 0],
     l2normalize [0, Real.log (3 / 2) + 1]] := by
  rw [matrixOf, docsW]
  simp only [List.map_cons, List.map_nil]
  rw [rawW0, rawW1]

/-- Claim C4, amended: for every corpus whose questions build a non-empty
vocabulary, every entry whose question contributes at least one vocabulary
term (non-zero tf-idf vector) and is no near-duplicate of any other entry
(every other document's cosine similarity with it is strictly below 1),
`get_answer` on that entry's exact question text returns that entry's
answer: the query vector coincides with the entry's document row, its
self-similarity is exactly 1 ≥ 0.15, and `argmax` must select it.  The
unqualified claim is false for an entry whose question normalizes to
nothing (see the counterexample). -/
theorem c4_exact_question_returns_answer (pairs : List Entry)
    (s₀ : ModelState) (i : Nat) (hi : i < pairs.length)
    (hv : vocabOf (docsOf pairs) ≠ [])
    (hnz : ∃ x ∈ rawOf (docsOf pairs) ((docsOf pairs).getD i ""), x ≠ 0)
    (hnd : ∀ j, j < pairs.length → j ≠ i →
      dot (l2normalize ((matrixOf (docsOf pairs)).getD i []))
          (l2normalize ((matrixOf (docsOf pairs)).getD j [])) < 1) :
    getAnswer (trainOn s₀ pairs) ((pairs.getD i ⟨"", ""⟩).question) =
      Except.ok (some ((pairs.getD i ⟨"", ""⟩).answer)) := by
  have hpairs : pairs ≠ [] := by
    intro h
    rw [h] at hi
    simp at hi
  have hDlen : (docsOf pairs).length = pairs.length := by simp [docsOf]
  have hiD : i < (docsOf pairs).length := by rw [hDlen]; exact hi
  have hMlen : (matrixOf (docsOf pairs)).length = pairs.length := by
    simp [matrixOf, docsOf]
  have hiM : i < (matrixOf (docsOf pairs)).length := by rw [hMlen]; exact hi
  have hq : preprocessText ((pairs.getD i ⟨"", ""⟩).question) =
      (docsOf pairs).getD i "" := by
    rw [getD_lt _ i _ hi, getD_lt _ i _ hiD]
    simp [docsOf]
  have hMi : (matrixOf (docsOf pairs)).getD i [] =
      l2normalize (rawOf (docsOf pairs) ((docsOf pairs).getD i "")) := by
    rw [getD_lt _ i _ hiM, getD_lt _ i _ hiD]
    simp [matrixOf]
  have htr : transform (fitOf (docsOf pairs)) ((docsOf pairs).getD i "") =
      (matrixOf (docsOf pairs)).getD i [] := by
    rw [hMi]
    rfl
  have hfitok : fitTransform (docsOf pairs) =
      Except.ok (fitOf (docsOf pairs), matrixOf (docsOf pairs)) := by
    rw [fitTransform, if_neg hv]
  have htrain : trainOn s₀ pairs =
      ⟨pairs, some (some (fitOf (docsOf pairs))),
        some (matrixOf (docsOf pairs))⟩ := by
    unfold trainOn
    rw [show (pairs.map fun e => preprocessText e.question) =
      docsOf pairs from rfl]
    rw [hfitok]
  have hraw_pos : 0 < dot (rawOf (docsOf pairs) ((docsOf pairs).getD i ""))
      (rawOf (docsOf pairs) ((docsOf pairs).getD i "")) := dot_self_pos _ hnz
  have hMiMi : dot ((matrixOf (docsOf pairs)).getD i [])
      ((matrixOf (docsOf pairs)).getD i []) = 1 := by
    rw [hMi]
    exact unit_dot _ hraw_pos
  have hsim_i : dot (l2normalize ((matrixOf (docsOf pairs)).getD i []))
      (l2normalize ((matrixOf (docsOf pairs)).getD i [])) = 1 :=
    unit_dot _ (by rw [hMiMi]; norm_num)
  rcases hs : cosineSimilarity ((matrixOf (docsOf pairs)).getD i [])
      (matrixOf (docsOf pairs)) with _ | ⟨s0, rest⟩
  · exfalso
    have hlen0 : pairs.length = 0 := by
      rw [← hMlen]
      simpa [cosineSimilarity] using congrArg List.length hs
    omega
  have hslen : (s0 :: rest).length = pairs.length := by
    rw [← hs]
    simp [cosineSimilarity, hMlen]
  have hi' : i < (s0 :: rest).length := by rw [hslen]; exact hi
  have hsimsD : ∀ j, j < pairs.length →
      (s0 :: rest).getD j 0 =
      dot (l2normalize ((matrixOf (docsOf pairs)).getD i []))
          (l2normalize ((matrixOf (docsOf pairs)).getD j [])) := by
    intro j hj
    have hjM : j < (matrixOf (docsOf pairs)).length := by
      rw [hMlen]; exact hj
    have hjc : j < (cosineSimilarity ((matrixOf (docsOf pairs)).getD i [])
        (matrixOf (docsOf pairs))).length := by
      simpa [cosineSimilarity] using hjM
    rw [← hs, getD_lt _ j _ hjc, getD_lt _ j _ hjM]
    simp [cosineSimilarity]
  rcases argmax_spec s0 rest with ⟨hb, hmax, hfirst⟩
  have hblt : argmax (s0 :: rest) < pairs.length := by
    rw [← hslen]; exact hb
  have hbi : argmax (s0 :: rest) = i := by
    by_contra hne
    have h1 : (s0 :: rest).getD i 0 ≤
        (s0 :: rest).getD (argmax (s0 :: rest)) 0 := by
      rw [getD_of_lt _ _ hi', getD_of_lt _ _ hb]
      exact hmax i hi'
    have h2 : (s0 :: rest).getD i 0 = 1 := by rw [hsimsD i hi, hsim_i]
    have h3 : (s0 :: rest).getD (argmax (s0 :: rest)) 0 < 1 := by
      rw [hsimsD _ hblt]
      exact hnd _ hblt hne
    rw [h2] at h1
    exact absurd (lt_of_le_of_lt h1 h3) (lt_irrefl 1)
  rw [htrain]
  unfold getAnswer
  have hcos : cosineSimilarity (transform (fitOf (docsOf pairs))
      (preprocessText ((pairs.getD i ⟨"", ""⟩).question)))
      (matrixOf (docsOf pairs)) = s0 :: rest := by
    rw [hq, htr, hs]
  simp only [getAnswerCore, hcos, if_neg hpairs,
    ← List.getD_eq_getElem?_getD]
  have hscore : (s0 :: rest).getD (argmax (s0 :: rest)) 0 = 1 := by
    rw [hbi, hsimsD i hi, hsim_i]
  rw [hscore, if_neg (by norm_num), hbi, List.getElem?_eq_getElem hi]
  rw [getD_lt _ i _ hi]

theorem c4_exact_question_returns_answer_witness :
    (0 < pairsW.length ∧ vocabOf (docsOf pairsW) ≠ [] ∧
     (∃ x ∈ rawOf (docsOf pairsW) ((docsOf pairsW).getD 0 ""), x ≠ 0) ∧
     (∀ j, j < pairsW.length → j ≠ 0 →
       dot (l2normalize ((matrixOf (docsOf pairsW)).getD 0 []))
           (l2normalize ((matrixOf (docsOf pairsW)).getD j [])) < 1)) ∧
    getAnswer (trainOn initState pairsW)
        ((pairsW.getD 0 ⟨"", ""⟩).question) =
      Except.ok (some ((pairsW.getD 0 ⟨"", ""⟩).answer)) := by
  have hnz : ∃ x ∈ rawOf (docsOf pairsW) ((docsOf pairsW).getD 0 ""),
      x ≠ 0 := by
    rw [show (docsOf pairsW).getD 0 "" = "hi" from by decide, docsW, rawW0]
    exact ⟨Real.log (3 / 2) + 1, List.mem_cons_self _ _, ne_of_gt logW_pos⟩
  have hnd : ∀ j, j < pairsW.length → j ≠ 0 →
      dot (l2normalize ((matrixOf (docsOf pairsW)).getD 0 []))
          (l2normalize ((matrixOf (docsOf pairsW)).getD j [])) < 1 := by
    intro j hj hne
    have hj2 : j < 2 := by simpa [pairsW] using hj
    interval_cases j
    · exact absurd rfl hne
    · rw [matrixW]
      simp only [List.getD_cons_zero, List.getD_cons_succ]
      rw [dot_l2n_disjoint]
      norm_num
  exact ⟨⟨by decide, by decide, hnz, hnd⟩,
    c4_exact_question_returns_answer pairsW initState 0 (by decide)
      (by decide) hnz hnd⟩

/-- Claim C4, counterexample: in the corpus `hi:hello`, `!!!:bang` (no
duplicate or near-duplicate questions — the normalized questions differ),
asking the exact question text `!!!` of the second entry yields `None`
instead of `bang`: the question normalizes to zero terms, so its (and the
query's) vector is all-zero and the similarity 0 falls below the
threshold. -/
theorem c4_zero_normalization_counterexample :
    parsePairs ["hi:hello", "!!!:bang"] =
      [⟨"hi", "hello"⟩, ⟨"!!!", "bang"⟩] ∧
    preprocessText "hi" ≠ preprocessText "!!!" ∧
    getAnswer (loadAndTrain initState (some ["hi:hello", "!!!:bang"])) "!!!" =
      Except.ok none := by
  refine ⟨by decide, by decide, ?_⟩
  have hload : loadAndTrain initState (some ["hi:hello", "!!!:bang"]) =
      ⟨[⟨"hi", "hello"⟩, ⟨"!!!", "bang"⟩],
       some (some (fitOf ["hi", ""])), some (matrixOf ["hi", ""])⟩ := by
    rw [loadAndTrain]
    rw [show parsePairs ["hi:hello", "!!!:bang"] =
      [⟨"hi", "hello"⟩, ⟨"!!!", "bang"⟩] from by decide]
    rw [if_neg (by decide)]
    unfold trainOn
    rw [show (([⟨"hi", "hello"⟩, ⟨"!!!", "bang"⟩] : List Entry).map
      (fun e => preprocessText e.question)) = ["hi", ""] from by decide]
    rw [fitTransform, if_neg (by decide)]
  rw [hload]
  exact getAnswer_zero_terms _ (fitOf ["hi", ""]) (matrixOf ["hi", ""]) "!!!"
    rfl rfl (by simp [matrixOf]) (by decide)

end JarvisQnA
